import Mathlib

/-!
Shallow embedding of the batch-dispatch / routing / metrics core of
`examples/agentic-ai/multi_agent_system.py` and the round loop of
`examples/agentic-ai/distributed_training.py`, together with theorems
settling the frozen claims about that code.

Modelling conventions:
* Python dicts with insertion order are embedded as association lists
  (`List Agent` keyed by `agent_id`, `List (String × AgentUtil)`).
* Wall-clock durations and the simulated loss/accuracy numbers are
  embedded as rationals (`ℚ`).
* The opaque unit of work (`Agent._execute_task`, `TrainingWorker.train_epoch`)
  is a parameter: an oracle returning `Except`/`Option` outcomes, where an
  `error`/`none` outcome stands for a raised Python exception.
* The threaded submit/collect loops of `process_tasks_parallel` are embedded
  sequentially: all assignments are evaluated against the registry state at
  batch start (the submit loop), and outcomes are then folded in order (the
  collect loop).  The claims settled here (outcome counting, metric updates,
  routing decisions) are invariant under the completion order.
-/

namespace MultiAgent

/-- One entry of `Agent.task_history` / one element of the `results` list:
the `task_record` dict built in `Agent.process_task` (lines 35-42).
Timestamps and the opaque `result` payload are omitted; `status` is the
literal string stored by the source (always `"completed"` there). -/
structure TaskRecord where
  task_id : String
  duration : ℚ
  status : String
deriving DecidableEq

/-- A task dict as routed by `MultiAgentSystem`.  `type?` models
`task.get('type', ...)`: `none` when the key is absent. -/
structure Task where
  task_id : String
  type? : Option String
deriving DecidableEq

/-- `task.get('type', 'generic')` as used by `_find_suitable_agents`. -/
def Task.taskType (t : Task) : String := t.type?.getD "generic"

/-- An `Agent` object: id, type, capabilities, mutable `status` string and
append-only `task_history` (lines 14-21). -/
structure Agent where
  agent_id : String
  agent_type : String
  capabilities : List String
  status : String
  task_history : List TaskRecord
deriving DecidableEq

/-- The status test on line 220: `agent.status in ['idle', 'working']`. -/
def statusEligible (a : Agent) : Bool :=
  a.status == "idle" || a.status == "working"

/-- The type-matching rule of `_find_suitable_agents` (lines 221-228):
exact pairing research/researcher, analysis/analyst, writing/writer, and
`generic` tasks match any agent. -/
def typeMatches (taskType : String) (a : Agent) : Bool :=
  (taskType == "research" && a.agent_type == "researcher") ||
  (taskType == "analysis" && a.agent_type == "analyst") ||
  (taskType == "writing" && a.agent_type == "writer") ||
  (taskType == "generic")

/-- `MultiAgentSystem._find_suitable_agents` (lines 214-230): iterate the
registry in insertion (registration) order, keeping agents whose status is
`idle` or `working` and whose type matches the task type. -/
def find_suitable_agents (agents : List Agent) (t : Task) : List Agent :=
  agents.filter (fun a => statusEligible a && typeMatches t.taskType a)

/-- Python `min(xs, key=lambda a: len(a.task_history))` on a nonempty list:
fold left, replacing the current best only on a strictly smaller key, so the
first minimiser wins (line 209). -/
def minByHistory (a : Agent) : List Agent → Agent
  | [] => a
  | b :: l =>
      minByHistory (if b.task_history.length < a.task_history.length then b else a) l

/-- `MultiAgentSystem.assign_task` (lines 198-212): `none` models the raised
`ValueError` when no suitable agent exists; otherwise the least-busy suitable
agent is selected.  (The uuid/timestamp fields written into the task are not
observable by any claim and are omitted.) -/
def assign_task (agents : List Agent) (t : Task) : Option Agent :=
  match find_suitable_agents agents t with
  | [] => none
  | a :: rest => some (minByHistory a rest)

/-- `r` is the first element of `l` attaining the minimum history length:
everything before it is strictly longer, everything after it is no shorter. -/
def IsFirstMin (l : List Agent) (r : Agent) : Prop :=
  ∃ pre suf, l = pre ++ r :: suf ∧
    (∀ b ∈ pre, r.task_history.length < b.task_history.length) ∧
    (∀ b ∈ suf, r.task_history.length ≤ b.task_history.length)


/-- One entry of `system_metrics['agent_utilization']` (lines 190-194). -/
structure AgentUtil where
  tasks_completed : ℕ
  total_time : ℚ
  average_time : ℚ
deriving DecidableEq

/-- The zero record written at registration (lines 190-194). -/
def freshUtil : AgentUtil := ⟨0, 0, 0⟩

/-- Python dict assignment `d[k] = v` on an insertion-ordered dict embedded
as an association list: replace in place when the key exists, else append. -/
def utilInsert (k : String) (v : AgentUtil) : List (String × AgentUtil) → List (String × AgentUtil)
  | [] => [(k, v)]
  | (k₀, v₀) :: rest => if k₀ == k then (k, v) :: rest else (k₀, v₀) :: utilInsert k v rest

/-- `self.agents[agent.agent_id] = agent` (line 189): dict assignment on the
registry, keyed by `agent_id`. -/
def agentsInsert (a : Agent) : List Agent → List Agent
  | [] => [a]
  | b :: rest => if b.agent_id == a.agent_id then a :: rest else b :: agentsInsert a rest

/-- One agent entry of the `config['agents']` list (lines 183-188). -/
structure AgentConfig where
  id : String
  kind : String
  capabilities : List String
deriving DecidableEq

/-- One iteration of `MultiAgentSystem._initialize_agents` (lines 183-194):
build a fresh idle agent with empty history from the config entry, store it
in the registry dict and store a zeroed utilization record under its id.
There is no duplicate check in the source: both writes are dict assignments. -/
def register (agents : List Agent) (util : List (String × AgentUtil)) (cfg : AgentConfig) :
    List Agent × List (String × AgentUtil) :=
  let a : Agent := ⟨cfg.id, cfg.kind, cfg.capabilities, "idle", []⟩
  (agentsInsert a agents, utilInsert cfg.id freshUtil util)

/-- `Agent.process_task` (lines 23-53), with the opaque work
`self._execute_task(task)` abstracted into its outcome: `.ok d` is a normal
return taking duration `d`, `.error e` is a raised exception.  On success the
record (status `"completed"`) is appended to `task_history` and the status
returns to `"idle"`; on failure the history is untouched, the status becomes
`"error"` and the exception is re-raised. -/
def process_task (a : Agent) (t : Task) (outcome : Except String ℚ) :
    Agent × Except String TaskRecord :=
  match outcome with
  | .ok d =>
      let record : TaskRecord := ⟨t.task_id, d, "completed"⟩
      ({ a with task_history := a.task_history ++ [record], status := "idle" }, .ok record)
  | .error e => ({ a with status := "error" }, .error e)

/-- Dict lookup on the utilization association list. -/
def utilLookup (k : String) : List (String × AgentUtil) → Option AgentUtil
  | [] => none
  | (k₀, v) :: rest => if k₀ == k then some v else utilLookup k rest

/-- Map the entry stored under key `k`, leaving the rest unchanged. -/
def utilUpdate (k : String) (f : AgentUtil → AgentUtil) :
    List (String × AgentUtil) → List (String × AgentUtil)
  | [] => []
  | (k₀, v) :: rest => if k₀ == k then (k₀, f v) :: rest else (k₀, v) :: utilUpdate k f rest

/-- `system_metrics` (lines 162-167): run totals plus the per-agent
utilization dict.  The start-time string is not observable by any claim. -/
structure SystemMetrics where
  tasks_processed : ℕ
  total_processing_time : ℚ
  agent_utilization : List (String × AgentUtil)
deriving DecidableEq

/-- The metrics update of the collect loop (lines 256-263), applied once per
successfully completed result: run totals gain one task and the result's
duration, and the completing agent's utilization gains one completed task,
the duration, and a recomputed average `total_time / tasks_completed`. -/
def updateMetrics (m : SystemMetrics) (agentId : String) (duration : ℚ) : SystemMetrics :=
  { tasks_processed := m.tasks_processed + 1
    total_processing_time := m.total_processing_time + duration
    agent_utilization := utilUpdate agentId (fun u =>
      { tasks_completed := u.tasks_completed + 1
        total_time := u.total_time + duration
        average_time := (u.total_time + duration) / ((u.tasks_completed + 1 : ℕ) : ℚ) })
      m.agent_utilization }

/-- Observable outcome of `process_tasks_parallel`: the `results` list and
metrics it builds, plus counts of the two logged error events — tasks whose
assignment raised `ValueError` (line 244) and dispatched tasks whose
execution raised (line 265).  The source only logs these; the counters count
those log events. -/
structure BatchState where
  results : List TaskRecord
  metrics : SystemMetrics
  routing_failures : ℕ
  exec_failures : ℕ
deriving DecidableEq

/-- `Except.isOk` for the execution oracle. -/
def execOk : Except String ℚ → Bool
  | .ok _ => true
  | .error _ => false

/-- One submitted task's journey through `process_tasks_parallel`
(lines 239-266): routing failure → logged and skipped (no result); dispatched
and completed → a `"completed"` record is appended to `results` and the
metrics are updated for the executing agent; dispatched and failed → logged,
no result, no metrics update. -/
def process_one (agents : List Agent) (exec : Task → Except String ℚ)
    (st : BatchState) (t : Task) : BatchState :=
  match assign_task agents t with
  | none => { st with routing_failures := st.routing_failures + 1 }
  | some a =>
      match exec t with
      | .ok d =>
          { st with
            results := st.results ++ [⟨t.task_id, d, "completed"⟩]
            metrics := updateMetrics st.metrics a.agent_id d }
      | .error _ => { st with exec_failures := st.exec_failures + 1 }

/-- `MultiAgentSystem.process_tasks_parallel` (lines 232-268), embedded
sequentially: all assignments are made against the registry state `agents` at
batch start, and each dispatched task's outcome (given by the oracle `exec`)
is folded into the batch state. -/
def process_tasks_parallel (agents : List Agent) (metrics₀ : SystemMetrics)
    (tasks : List Task) (exec : Task → Except String ℚ) : BatchState :=
  tasks.foldl (process_one agents exec) ⟨[], metrics₀, 0, 0⟩

end MultiAgent

namespace DistTraining

/-- The `{'loss': …, 'accuracy': …}` dict returned by
`TrainingWorker.train_epoch` (line 50). -/
structure EpochResult where
  loss : ℚ
  accuracy : ℚ
deriving DecidableEq

/-- `DistributedTrainingCoordinator.synchronize_workers` (lines 111-130),
restricted to its metric computation: both global metrics divide a sum by
`len(epoch_results)`.  Python raises `ZeroDivisionError` on an empty list,
embedded as `none`; otherwise the pair (global loss, global accuracy) is
returned and appended to the global histories. -/
def synchronize_workers (epoch_results : List EpochResult) : Option (ℚ × ℚ) :=
  if epoch_results.length = 0 then none
  else some ((epoch_results.map EpochResult.loss).sum / epoch_results.length,
             (epoch_results.map EpochResult.accuracy).sum / epoch_results.length)

/-- `DistributedTrainingCoordinator.train_epoch_parallel` (lines 132-160):
each worker's `train_epoch` outcome is `some r` on success or `none` when the
future raised (the source logs the failure and collects nothing); the
successful results are gathered and synchronized. -/
def train_epoch_parallel (outcomes : List (Option EpochResult)) : Option (ℚ × ℚ) :=
  synchronize_workers (outcomes.filterMap id)

/-- The training loop of `run_training` (lines 174-186) with the per-epoch
worker outcomes supplied by an oracle: runs epochs `e, e+1, …` while `n`
epochs remain, recording each epoch's global accuracy, stopping early as soon
as an epoch's global accuracy exceeds `0.95`, and propagating the uncaught
`ZeroDivisionError` of an all-failed epoch (`run_training` re-raises it,
line 190). -/
def train_loop (outcomes : ℕ → List (Option EpochResult)) :
    ℕ → ℕ → Except String (List ℚ)
  | 0, _ => .ok []
  | n + 1, e =>
      match train_epoch_parallel (outcomes e) with
      | none => .error "ZeroDivisionError"
      | some (_, ga) =>
          if 95 / 100 < ga then .ok [ga]
          else
            match train_loop outcomes n (e + 1) with
            | .error s => .error s
            | .ok rest => .ok (ga :: rest)

/-- The same loop with the synchronized global accuracy of each epoch
abstracted into a function `acc` (every epoch synchronizes successfully):
`training_rounds acc n e` is the suffix of the global accuracy history
produced from epoch `e` with `n` epochs remaining.  Epoch `e`'s accuracy is
appended before the early-stopping check `global_accuracy > 0.95`
(lines 177-182), so the triggering epoch is itself recorded. -/
def training_rounds (acc : ℕ → ℚ) : ℕ → ℕ → List ℚ
  | 0, _ => []
  | n + 1, e => acc e :: (if 95 / 100 < acc e then [] else training_rounds acc n (e + 1))

/-- `run_training` (lines 162-201) for a run configured with `epochs` rounds:
epochs are numbered from 1 (`range(1, self.epochs + 1)`, line 174). -/
def run_training (epochs : ℕ) (acc : ℕ → ℚ) : List ℚ :=
  training_rounds acc epochs 1

/-- The `epochs_completed` figure reported by `_save_results` (line 239):
the length of the global per-round metric history. -/
def epochs_completed (epochs : ℕ) (acc : ℕ → ℚ) : ℕ :=
  (run_training epochs acc).length

/-- `samples_per_worker = total_samples // self.num_workers` (line 98). -/
def samples_per_worker (total_samples num_workers : ℕ) : ℕ :=
  total_samples / num_workers

/-- Worker `i`'s partition in `_generate_training_data` (lines 100-107):
`list(range(i * spw, i * spw + spw))`, the consecutive indices from
`i * spw` of length `spw`. -/
def data_partition (total_samples num_workers i : ℕ) : List ℕ :=
  List.range' (i * samples_per_worker total_samples num_workers)
    (samples_per_worker total_samples num_workers)

end DistTraining

/-!
Concrete registry states, task batches and oracles used by the closed
counterexamples and witnesses below.
-/

namespace MultiAgent

/-- A completed record used to pad concrete task histories. -/
def priorRecord : TaskRecord := ⟨"prior-task", 1, "completed"⟩

/-- Spec example: analyst A, registered first, 2 completed tasks. -/
def analystA : Agent := ⟨"analyst-A", "analyst", [], "idle", [priorRecord, priorRecord]⟩

/-- Spec example: analyst B, registered second, 1 completed task. -/
def analystB : Agent := ⟨"analyst-B", "analyst", [], "idle", [priorRecord]⟩

/-- An analysis task, routable only to analysts. -/
def taskAnalysis : Task := ⟨"task-analysis", some "analysis"⟩

/-- A freshly registered researcher: idle, empty history. -/
def idleResearcher : Agent := ⟨"researcher-001", "researcher", [], "idle", []⟩

/-- A research task, routable only to researchers. -/
def taskResearch : Task := ⟨"task-research", some "research"⟩

/-- The state `idleResearcher` is left in after its execution raised. -/
def failedResearcher : Agent :=
  (process_task idleResearcher taskResearch (.error "boom")).1

/-- An idle researcher with two completed tasks, registered after
`failedResearcher`. -/
def busyResearcher : Agent :=
  ⟨"researcher-002", "researcher", [], "idle", [priorRecord, priorRecord]⟩

/-- Initial system metrics with one registered researcher. -/
def metricsInit : SystemMetrics := ⟨0, 0, [("researcher-001", freshUtil)]⟩

/-- A batch of one generic task. -/
def oneGenericTask : List Task := [⟨"t1", some "generic"⟩]

/-- A batch of five generic tasks. -/
def fiveGenericTasks : List Task :=
  [⟨"t1", some "generic"⟩, ⟨"t2", some "generic"⟩, ⟨"t3", some "generic"⟩,
   ⟨"t4", some "generic"⟩, ⟨"t5", some "generic"⟩]

/-- An execution oracle on which every dispatched task raises. -/
def execAllFail : Task → Except String ℚ := fun _ => .error "boom"

/-- An execution oracle that raises exactly on task `"t3"`. -/
def execFailOnT3 : Task → Except String ℚ :=
  fun t => if t.task_id == "t3" then .error "boom" else .ok 1

/-- A registered researcher with one completed task and accumulated metrics. -/
def dupAgent : Agent := ⟨"dup-01", "researcher", ["search"], "idle", [priorRecord]⟩

/-- Accumulated utilization for `dupAgent`. -/
def dupUtil : AgentUtil := ⟨5, 10, 2⟩

/-- A config entry reusing the identifier `"dup-01"` with a different type. -/
def dupConfig : AgentConfig := ⟨"dup-01", "writer", []⟩

end MultiAgent

namespace DistTraining

/-- Accuracy schedule `(90 + e) / 100`: first exceeds `0.95` at epoch 6. -/
def accLinear : ℕ → ℚ := fun e => (90 + e) / 100

/-- Per-epoch outcomes in which every worker's future raised. -/
def allFailedOutcomes : ℕ → List (Option EpochResult) := fun _ => [none, none]

end DistTraining

namespace MultiAgent

theorem minByHistory_isFirstMin (l : List Agent) :
    ∀ a : Agent, IsFirstMin (a :: l) (minByHistory a l) := by
  induction l with
  | nil =>
      intro a
      exact ⟨[], [], rfl, by simp, by simp⟩
  | cons b l ih =>
      intro a
      by_cases hba : b.task_history.length < a.task_history.length
      · have h := ih b
        rw [minByHistory, if_pos hba]
        obtain ⟨pre, suf, hdec, hpre, hsuf⟩ := h
        refine ⟨a :: pre, suf, by rw [List.cons_append, hdec], ?_, hsuf⟩
        intro c hc
        rcases List.mem_cons.mp hc with hc | hc
        · subst hc
          have hr : (minByHistory b l).task_history.length ≤ b.task_history.length := by
            cases pre with
            | nil =>
                have : b = minByHistory b l := by
                  have := hdec
                  simp at this
                  exact this.1
                rw [← this]
            | cons p ps =>
                have hpb : p = b := by
                  have := hdec
                  simp at this
                  exact this.1.symm
                have := hpre p (by simp)
                rw [hpb] at this
                exact le_of_lt this
          exact lt_of_le_of_lt hr hba
        · exact hpre c hc
      · have h := ih a
        rw [minByHistory, if_neg hba]
        obtain ⟨pre, suf, hdec, hpre, hsuf⟩ := h
        cases pre with
        | nil =>
            have hra : minByHistory a l = a ∧ suf = l := by
              have := hdec
              simp at this
              exact ⟨this.1.symm, this.2.symm⟩
            refine ⟨[], b :: suf, ?_, by simp, ?_⟩
            · simp only [List.nil_append]
              have := hdec
              simp at this
              rw [← this.1, ← this.2]
            · intro c hc
              rcases List.mem_cons.mp hc with hc | hc
              · subst hc
                rw [hra.1]
                exact le_of_not_lt hba
              · exact hsuf c hc
        | cons p ps =>
            have hpa : p = a ∧ l = ps ++ minByHistory a l :: suf := by
              have := hdec
              simp at this
              exact ⟨this.1.symm, this.2⟩
            refine ⟨a :: b :: ps, suf, ?_, ?_, hsuf⟩
            · simpa using congrArg (fun xs => a :: b :: xs) hpa.2
            · intro c hc
              have hmin_a : (minByHistory a l).task_history.length < a.task_history.length := by
                have := hpre p (by simp)
                rw [hpa.1] at this
                exact this
              rcases List.mem_cons.mp hc with hc | hc
              · subst hc; exact hmin_a
              · rcases List.mem_cons.mp hc with hc | hc
                · subst hc
                  exact lt_of_lt_of_le hmin_a (le_of_not_lt hba)
                · exact hpre c (by simp [hc])

theorem utilLookup_utilUpdate (k : String) (f : AgentUtil → AgentUtil) :
    ∀ l : List (String × AgentUtil),
      utilLookup k (utilUpdate k f l) = (utilLookup k l).map f
  | [] => rfl
  | (k₀, v) :: rest => by
      by_cases h : (k₀ == k) = true
      · simp [utilUpdate, utilLookup, h]
      · simp only [utilUpdate, utilLookup, h, Bool.false_eq_true, if_false]
        exact utilLookup_utilUpdate k f rest

theorem agentsInsert_replace (a old : Agent) (suf : List Agent) :
    ∀ pre : List Agent, old.agent_id = a.agent_id →
      (∀ b ∈ pre, b.agent_id ≠ a.agent_id) →
      agentsInsert a (pre ++ old :: suf) = pre ++ a :: suf
  | [], hold, _ => by
      simp [agentsInsert, hold]
  | p :: ps, hold, hpre => by
      have hp : (p.agent_id == a.agent_id) = false :=
        beq_eq_false_iff_ne.mpr (hpre p (by simp))
      simp only [List.cons_append, agentsInsert, hp, Bool.false_eq_true, if_false]
      exact congrArg (p :: ·)
        (agentsInsert_replace a old suf ps hold (fun b hb => hpre b (by simp [hb])))

theorem utilInsert_replace (k : String) (v w : AgentUtil) (usuf : List (String × AgentUtil)) :
    ∀ upre : List (String × AgentUtil), (∀ p ∈ upre, p.1 ≠ k) →
      utilInsert k v (upre ++ (k, w) :: usuf) = upre ++ (k, v) :: usuf
  | [], _ => by simp [utilInsert]
  | p :: ps, hpre => by
      have hp : (p.1 == k) = false := beq_eq_false_iff_ne.mpr (hpre p (by simp))
      obtain ⟨k₀, v₀⟩ := p
      simp only [List.cons_append, utilInsert, hp, Bool.false_eq_true, if_false]
      exact congrArg ((k₀, v₀) :: ·)
        (utilInsert_replace k v w usuf ps (fun q hq => hpre q (by simp [hq])))

theorem process_one_routing_failure {agents : List Agent} {t : Task}
    (exec : Task → Except String ℚ) (st : BatchState)
    (h : assign_task agents t = none) :
    process_one agents exec st t = { st with routing_failures := st.routing_failures + 1 } := by
  unfold process_one
  rw [h]

theorem process_one_completed {agents : List Agent} {t : Task} {a : Agent}
    {exec : Task → Except String ℚ} {d : ℚ} (st : BatchState)
    (h : assign_task agents t = some a) (he : exec t = .ok d) :
    process_one agents exec st t =
      { st with
        results := st.results ++ [⟨t.task_id, d, "completed"⟩]
        metrics := updateMetrics st.metrics a.agent_id d } := by
  unfold process_one
  rw [h, he]

theorem process_one_exec_failure {agents : List Agent} {t : Task} {a : Agent}
    {exec : Task → Except String ℚ} {e : String} (st : BatchState)
    (h : assign_task agents t = some a) (he : exec t = .error e) :
    process_one agents exec st t = { st with exec_failures := st.exec_failures + 1 } := by
  unfold process_one
  rw [h, he]

theorem batch_fold_count (agents : List Agent) (exec : Task → Except String ℚ) :
    ∀ (tasks : List Task) (st : BatchState),
      (tasks.foldl (process_one agents exec) st).results.length
        + (tasks.foldl (process_one agents exec) st).routing_failures
        + (tasks.foldl (process_one agents exec) st).exec_failures
      = st.results.length + st.routing_failures + st.exec_failures + tasks.length
  | [], st => by simp
  | t :: ts, st => by
      rw [List.foldl_cons]
      rw [batch_fold_count agents exec ts (process_one agents exec st t)]
      cases h : assign_task agents t with
      | none =>
          rw [process_one_routing_failure exec st h]
          simp only [List.length_cons]
          omega
      | some a =>
          cases he : exec t with
          | ok d =>
              rw [process_one_completed st h he]
              simp only [List.length_append, List.length_cons, List.length_nil]
              omega
          | error e =>
              rw [process_one_exec_failure st h he]
              simp only [List.length_cons]
              omega

theorem batch_fold_results (agents : List Agent) (exec : Task → Except String ℚ) :
    ∀ (tasks : List Task) (st : BatchState),
      ((tasks.foldl (process_one agents exec) st).results.length
        = st.results.length
          + tasks.countP (fun t => (assign_task agents t).isSome && execOk (exec t)))
      ∧ (∀ r ∈ (tasks.foldl (process_one agents exec) st).results,
          r ∈ st.results ∨ r.status = "completed")
  | [], st => by
      refine ⟨by simp, fun r hr => Or.inl ?_⟩
      simpa using hr
  | t :: ts, st => by
      rw [List.foldl_cons, List.countP_cons]
      cases h : assign_task agents t with
      | none =>
          rw [process_one_routing_failure exec st h]
          obtain ⟨ihlen, ihmem⟩ := batch_fold_results agents exec ts
            { st with routing_failures := st.routing_failures + 1 }
          refine ⟨?_, ihmem⟩
          rw [ihlen]
          simp [h]
      | some a =>
          cases he : exec t with
          | ok d =>
              rw [process_one_completed st h he]
              obtain ⟨ihlen, ihmem⟩ := batch_fold_results agents exec ts
                { st with
                  results := st.results ++ [⟨t.task_id, d, "completed"⟩]
                  metrics := updateMetrics st.metrics a.agent_id d }
              constructor
              · rw [ihlen]
                simp [execOk]
                omega
              · intro r hr
                rcases ihmem r hr with hmem | hst
                · rcases List.mem_append.mp hmem with hmem | hmem
                  · exact Or.inl hmem
                  · right
                    have hr' : r = (⟨t.task_id, d, "completed"⟩ : TaskRecord) := by
                      simpa using hmem
                    rw [hr']
                · exact Or.inr hst
          | error e =>
              rw [process_one_exec_failure st h he]
              obtain ⟨ihlen, ihmem⟩ := batch_fold_results agents exec ts
                { st with exec_failures := st.exec_failures + 1 }
              refine ⟨?_, ihmem⟩
              rw [ihlen]
              simp [execOk]

end MultiAgent

namespace MultiAgent

/-- Claim C3: for every task with a nonempty set of suitable agents,
`assign_task` selects the suitable agent with the fewest completed tasks in
its history; ties go to the agent appearing first in the suitable list, which
preserves registration order (the registry is filtered in insertion order).
Routing is a pure function of the registry state, hence deterministic. -/
theorem assign_task_selects_first_least_busy (agents : List Agent) (t : Task)
    (h : find_suitable_agents agents t ≠ []) :
    ∃ s, assign_task agents t = some s ∧
      IsFirstMin (find_suitable_agents agents t) s := by
  cases hfs : find_suitable_agents agents t with
  | nil => exact absurd hfs h
  | cons a rest =>
      refine ⟨minByHistory a rest, ?_, ?_⟩
      · simp only [assign_task, hfs]
      · exact minByHistory_isFirstMin rest a

/-- Witness for C3 at the spec's worked example: analysts A (2 completed
tasks) and B (1 completed task); the analysis task routes to B. -/
theorem assign_task_selects_first_least_busy_witness :
    find_suitable_agents [analystA, analystB] taskAnalysis ≠ [] ∧
    ∃ s, assign_task [analystA, analystB] taskAnalysis = some s ∧
      IsFirstMin (find_suitable_agents [analystA, analystB] taskAnalysis) s :=
  ⟨by decide,
   assign_task_selects_first_least_busy [analystA, analystB] taskAnalysis (by decide)⟩

/-- Counterexample to claim C5 as stated: a researcher left in status
`"error"` by a failed execution is NOT in the router's candidate set for a
matching research task — the source admits only statuses `"idle"` and
`"working"` (line 220). -/
theorem error_status_worker_counterexample :
    failedResearcher.status = "error" ∧
    find_suitable_agents [failedResearcher, busyResearcher] taskResearch
      = [busyResearcher] ∧
    failedResearcher ∉ find_suitable_agents [failedResearcher, busyResearcher] taskResearch := by
  decide

/-- Claim C5 amended: a type-matching worker stays in the router's candidate
set while its status is `"idle"` or `"working"`; a worker whose status is
`"error"` after a failed execution is excluded from the candidate set. -/
theorem find_suitable_agents_status_policy (agents : List Agent) (a : Agent) (t : Task)
    (hmem : a ∈ agents) (hty : typeMatches t.taskType a = true) :
    ((a.status = "idle" ∨ a.status = "working") → a ∈ find_suitable_agents agents t) ∧
    (a.status = "error" → a ∉ find_suitable_agents agents t) := by
  constructor
  · intro hs
    refine List.mem_filter.mpr ⟨hmem, ?_⟩
    have he : statusEligible a = true := by
      rcases hs with h | h <;> simp [statusEligible, h]
    simp [he, hty]
  · intro hs hin
    have h2 := (List.mem_filter.mp hin).2
    have he : statusEligible a = false := by simp [statusEligible, hs]
    simp [he] at h2

/-- Witness for the amended C5: an idle researcher is in the candidate set of
its own one-agent registry for a research task, and would be excluded in
status `"error"`. -/
theorem find_suitable_agents_status_policy_witness :
    idleResearcher ∈ [idleResearcher] ∧
    typeMatches taskResearch.taskType idleResearcher = true ∧
    (((idleResearcher.status = "idle" ∨ idleResearcher.status = "working") →
        idleResearcher ∈ find_suitable_agents [idleResearcher] taskResearch) ∧
      (idleResearcher.status = "error" →
        idleResearcher ∉ find_suitable_agents [idleResearcher] taskResearch)) :=
  ⟨by decide, by decide,
   find_suitable_agents_status_policy [idleResearcher] idleResearcher taskResearch
     (by decide) (by decide)⟩

/-- Counterexample to claim C9 as stated: `failedResearcher` (empty history —
the failed execution appended nothing) has strictly fewer completed tasks
than `busyResearcher`, yet the router does not prefer it: its `"error"`
status removes it from the candidate set, and the task routes to the busier
worker. -/
theorem failing_worker_not_preferred_counterexample :
    failedResearcher.task_history.length < busyResearcher.task_history.length ∧
    assign_task [failedResearcher, busyResearcher] taskResearch = some busyResearcher ∧
    assign_task [failedResearcher, busyResearcher] taskResearch ≠ some failedResearcher := by
  decide

/-- Claim C9 amended: `process_task` appends to the worker's history exactly
when the execution succeeds (and returns the status to `"idle"`); on failure
the history is unchanged — so the least-busy metric counts only successful
completions — but the worker transitions to status `"error"` and is thereby
excluded from the router's candidate set for subsequent tasks, rather than
being preferred. -/
theorem process_task_history_append_iff_success (a : Agent) (t : Task) (d : ℚ) (e : String) :
    ((process_task a t (.ok d)).1.task_history
        = a.task_history ++ [⟨t.task_id, d, "completed"⟩]) ∧
    ((process_task a t (.ok d)).1.status = "idle") ∧
    ((process_task a t (.error e)).1.task_history = a.task_history) ∧
    ((process_task a t (.error e)).1.status = "error") ∧
    (∀ (agents : List Agent) (t' : Task),
        (process_task a t (.error e)).1 ∉ find_suitable_agents agents t') := by
  refine ⟨rfl, rfl, rfl, rfl, ?_⟩
  intro agents t' hin
  have h2 := (List.mem_filter.mp hin).2
  have he : statusEligible (process_task a t (.error e)).1 = false := rfl
  rw [he, Bool.false_and] at h2
  exact Bool.false_ne_true h2

/-- Counterexample to claim C6 as stated: registering a config entry whose
identifier `"dup-01"` is already present raises nothing, does not leave the
registry unchanged — the stored worker is replaced by a fresh one — and
resets the accumulated utilization metrics to zeros. -/
theorem register_duplicate_counterexample :
    (register [dupAgent] [("dup-01", dupUtil)] dupConfig).1 ≠ [dupAgent] ∧
    (register [dupAgent] [("dup-01", dupUtil)] dupConfig).2 = [("dup-01", freshUtil)] := by
  decide

/-- Claim C6 amended: registering a worker whose identifier already exists
raises no error; the registry keeps its length and order but the stored
worker is replaced in place by a fresh idle worker with empty history built
from the new config, and its utilization record is reset to the zero record. -/
theorem register_duplicate_replaces_and_resets (pre suf : List Agent) (old : Agent)
    (upre usuf : List (String × AgentUtil)) (u : AgentUtil) (cfg : AgentConfig)
    (hold : old.agent_id = cfg.id)
    (hpre : ∀ b ∈ pre, b.agent_id ≠ cfg.id)
    (hupre : ∀ p ∈ upre, p.1 ≠ cfg.id) :
    (register (pre ++ old :: suf) (upre ++ (cfg.id, u) :: usuf) cfg).1
        = pre ++ (⟨cfg.id, cfg.kind, cfg.capabilities, "idle", []⟩ : Agent) :: suf ∧
    (register (pre ++ old :: suf) (upre ++ (cfg.id, u) :: usuf) cfg).2
        = upre ++ (cfg.id, freshUtil) :: usuf ∧
    ((register (pre ++ old :: suf) (upre ++ (cfg.id, u) :: usuf) cfg).1).length
        = (pre ++ old :: suf).length := by
  have h1 : (register (pre ++ old :: suf) (upre ++ (cfg.id, u) :: usuf) cfg).1
      = pre ++ (⟨cfg.id, cfg.kind, cfg.capabilities, "idle", []⟩ : Agent) :: suf :=
    agentsInsert_replace ⟨cfg.id, cfg.kind, cfg.capabilities, "idle", []⟩ old suf pre hold hpre
  refine ⟨h1, ?_, ?_⟩
  · exact utilInsert_replace cfg.id freshUtil u usuf upre hupre
  · rw [h1]
    simp

/-- Witness for the amended C6: re-registering `"dup-01"` over a one-entry
registry replaces `dupAgent` with the fresh writer and zeroes its metrics. -/
theorem register_duplicate_replaces_and_resets_witness :
    dupAgent.agent_id = dupConfig.id ∧
    ((register ([] ++ dupAgent :: []) ([] ++ (dupConfig.id, dupUtil) :: []) dupConfig).1
        = [] ++ (⟨dupConfig.id, dupConfig.kind, dupConfig.capabilities, "idle", []⟩ : Agent) :: [] ∧
      (register ([] ++ dupAgent :: []) ([] ++ (dupConfig.id, dupUtil) :: []) dupConfig).2
        = [] ++ (dupConfig.id, freshUtil) :: [] ∧
      ((register ([] ++ dupAgent :: []) ([] ++ (dupConfig.id, dupUtil) :: []) dupConfig).1).length
        = ([] ++ dupAgent :: []).length) :=
  ⟨by decide,
   register_duplicate_replaces_and_resets [] [] dupAgent [] [] dupUtil dupConfig
     (by decide) (by simp) (by simp)⟩

end MultiAgent

namespace MultiAgent

/-- Claim C4: for every TaskResult delivered to the metrics update (the
source delivers exactly the results that completed through the dispatcher,
and the update inspects no status field), the total-tasks counter gains 1,
total processing time gains the result's duration, the originating worker's
utilization gains one completed task and the duration with the average
recomputed as total over completed — and a task whose execution failed
contributes nothing to the metrics (successes only). -/
theorem updateMetrics_spec (m : SystemMetrics) (agentId : String) (d : ℚ) (u : AgentUtil)
    (h : utilLookup agentId m.agent_utilization = some u) :
    (updateMetrics m agentId d).tasks_processed = m.tasks_processed + 1 ∧
    (updateMetrics m agentId d).total_processing_time = m.total_processing_time + d ∧
    (utilLookup agentId (updateMetrics m agentId d).agent_utilization
        = some ⟨u.tasks_completed + 1, u.total_time + d,
                (u.total_time + d) / ((u.tasks_completed + 1 : ℕ) : ℚ)⟩) ∧
    (∀ u', utilLookup agentId (updateMetrics m agentId d).agent_utilization = some u' →
        u'.average_time = u'.total_time / (u'.tasks_completed : ℚ)) ∧
    (∀ (agents : List Agent) (exec : Task → Except String ℚ) (st : BatchState)
        (t : Task) (e : String), exec t = .error e →
        (process_one agents exec st t).metrics = st.metrics) := by
  have hlook : utilLookup agentId (updateMetrics m agentId d).agent_utilization
      = some ⟨u.tasks_completed + 1, u.total_time + d,
              (u.total_time + d) / ((u.tasks_completed + 1 : ℕ) : ℚ)⟩ := by
    show utilLookup agentId (utilUpdate agentId _ m.agent_utilization) = _
    rw [utilLookup_utilUpdate, h]
    rfl
  refine ⟨rfl, rfl, hlook, ?_, ?_⟩
  · intro u' hu'
    rw [hlook] at hu'
    cases hu'
    rfl
  · intro agents exec st t e he
    cases ha : assign_task agents t with
    | none => rw [process_one_routing_failure exec st ha]
    | some a => rw [process_one_exec_failure st ha he]

/-- Witness for C4 with the one-researcher metrics state and a duration of 2. -/
theorem updateMetrics_spec_witness :
    utilLookup "researcher-001" metricsInit.agent_utilization = some freshUtil ∧
    ((updateMetrics metricsInit "researcher-001" 2).tasks_processed
        = metricsInit.tasks_processed + 1 ∧
      (updateMetrics metricsInit "researcher-001" 2).total_processing_time
        = metricsInit.total_processing_time + 2 ∧
      (utilLookup "researcher-001" (updateMetrics metricsInit "researcher-001" 2).agent_utilization
          = some ⟨freshUtil.tasks_completed + 1, freshUtil.total_time + 2,
                  (freshUtil.total_time + 2) / ((freshUtil.tasks_completed + 1 : ℕ) : ℚ)⟩) ∧
      (∀ u', utilLookup "researcher-001"
            (updateMetrics metricsInit "researcher-001" 2).agent_utilization = some u' →
          u'.average_time = u'.total_time / (u'.tasks_completed : ℚ)) ∧
      (∀ (agents : List Agent) (exec : Task → Except String ℚ) (st : BatchState)
          (t : Task) (e : String), exec t = .error e →
          (process_one agents exec st t).metrics = st.metrics)) :=
  ⟨by decide, updateMetrics_spec metricsInit "researcher-001" 2 freshUtil (by decide)⟩

/-- Counterexample to claim C1 as stated: a one-task batch whose dispatched
execution raises yields an empty results list and no routing failure, so
results plus routing failures is 0, not the 1 submitted task — the execution
failure is only logged. -/
theorem batch_outcome_count_counterexample :
    (process_tasks_parallel [idleResearcher] metricsInit oneGenericTask execAllFail).results.length
        + (process_tasks_parallel [idleResearcher] metricsInit oneGenericTask
            execAllFail).routing_failures
      ≠ oneGenericTask.length := by
  decide

/-- Claim C1 amended: every submitted task yields exactly one outcome event —
a completed TaskResult in `results`, a logged routing failure, or a logged
execution failure — so results + routing failures + execution failures
equals the number of submitted tasks. -/
theorem batch_outcome_accounting (agents : List Agent) (m : SystemMetrics)
    (tasks : List Task) (exec : Task → Except String ℚ) :
    (process_tasks_parallel agents m tasks exec).results.length
      + (process_tasks_parallel agents m tasks exec).routing_failures
      + (process_tasks_parallel agents m tasks exec).exec_failures
      = tasks.length := by
  have h := batch_fold_count agents exec tasks ⟨[], m, 0, 0⟩
  simpa [process_tasks_parallel] using h

/-- Counterexample to claim C2 as stated: a 5-task batch with exactly one
execution failure returns 4 results, not 5 — the dispatcher emits no
`failed` TaskResult for the failing task. -/
theorem partial_failure_counterexample :
    (process_tasks_parallel [idleResearcher] metricsInit fiveGenericTasks
        execFailOnT3).results.length = 4 ∧
    ¬ (process_tasks_parallel [idleResearcher] metricsInit fiveGenericTasks
        execFailOnT3).results.length = 5 := by
  decide

/-- Claim C2 amended: on an execution failure the dispatcher logs the error
and emits no TaskResult; the batch is not aborted — the remaining tasks still
run, the call returns normally — and `results` holds exactly one entry, of
status `"completed"`, per dispatched task whose execution succeeded. -/
theorem batch_partial_failure_results (agents : List Agent) (m : SystemMetrics)
    (tasks : List Task) (exec : Task → Except String ℚ) :
    ((process_tasks_parallel agents m tasks exec).results.length
      = tasks.countP (fun t => (assign_task agents t).isSome && execOk (exec t))) ∧
    (∀ r ∈ (process_tasks_parallel agents m tasks exec).results, r.status = "completed") := by
  obtain ⟨hlen, hmem⟩ := batch_fold_results agents exec tasks ⟨[], m, 0, 0⟩
  refine ⟨by simpa [process_tasks_parallel] using hlen, ?_⟩
  intro r hr
  rcases hmem r hr with h | h
  · simp at h
  · exact h

end MultiAgent

namespace DistTraining

theorem training_rounds_length_of_no_stop (acc : ℕ → ℚ) :
    ∀ (n e : ℕ), (∀ j, e ≤ j → j < e + n → acc j ≤ 95 / 100) →
      (training_rounds acc n e).length = n
  | 0, _, _ => rfl
  | n + 1, e, h => by
      show (acc e :: (if 95 / 100 < acc e then []
          else training_rounds acc n (e + 1))).length = n + 1
      rw [if_neg (not_lt.mpr (h e le_rfl (by omega)))]
      simp only [List.length_cons]
      rw [training_rounds_length_of_no_stop acc n (e + 1)
        (fun j h1 h2 => h j (by omega) (by omega))]

theorem training_rounds_length_of_first_over (acc : ℕ → ℚ) :
    ∀ (n e k : ℕ), e ≤ k → k < e + n → 95 / 100 < acc k →
      (∀ j, e ≤ j → j < k → acc j ≤ 95 / 100) →
      (training_rounds acc n e).length = k + 1 - e
  | 0, e, k, h1, h2, _, _ => absurd h2 (by omega)
  | n + 1, e, k, h1, h2, hk, hmin => by
      show (acc e :: (if 95 / 100 < acc e then []
          else training_rounds acc n (e + 1))).length = k + 1 - e
      rcases eq_or_lt_of_le h1 with he | he
      · subst he
        rw [if_pos hk]
        simp
      · rw [if_neg (not_lt.mpr (hmin e le_rfl he))]
        simp only [List.length_cons]
        rw [training_rounds_length_of_first_over acc n (e + 1) k he (by omega) hk
          (fun j hj1 hj2 => hmin j (by omega) hj2)]
        omega

/-- Claim C7: for a run configured with `R` rounds, the loop stops issuing
rounds at the first round `k ≤ R` whose synchronized global accuracy exceeds
the `0.95` threshold (the triggering round's metric is recorded before the
break), or after round `R` when the threshold is never exceeded, and the
reported `epochs_completed` — the length of the per-round metric history —
equals `k` (respectively `R`), not `R` in the early-exit case. -/
theorem run_training_round_count (R : ℕ) (acc : ℕ → ℚ) :
    (∀ k, 1 ≤ k → k ≤ R → 95 / 100 < acc k →
        (∀ j, 1 ≤ j → j < k → acc j ≤ 95 / 100) →
        epochs_completed R acc = k) ∧
    ((∀ j, 1 ≤ j → j ≤ R → acc j ≤ 95 / 100) → epochs_completed R acc = R) := by
  constructor
  · intro k h1 h2 hk hmin
    show (training_rounds acc R 1).length = k
    rw [training_rounds_length_of_first_over acc R 1 k h1 (by omega) hk hmin]
    omega
  · intro h
    exact training_rounds_length_of_no_stop acc R 1 (fun j hj1 hj2 => h j hj1 (by omega))

/-- Witness for C7: with a 10-round configuration and the accuracy schedule
`(90 + e) / 100`, which first exceeds `0.95` at round 6, the run reports 6
completed rounds, not 10. -/
theorem run_training_round_count_witness :
    epochs_completed 10 accLinear = 6 :=
  (run_training_round_count 10 accLinear).1 6 (by norm_num) (by norm_num)
    (by norm_num [accLinear])
    (fun j hj1 hj2 => by
      have hj : (j : ℚ) ≤ 5 := by exact_mod_cast Nat.lt_succ_iff.mp hj2
      show (90 + (j : ℚ)) / 100 ≤ 95 / 100
      rw [div_le_div_iff₀ (by norm_num) (by norm_num)]
      nlinarith)

/-- Claim C8: synchronization divides by the length of the successful-result
list, so it is total only when at least one result is present — an empty list
(every worker failed) raises `ZeroDivisionError` — and a round in which every
worker fails makes the whole run abort with that error instead of handling
the empty batch. -/
theorem synchronize_empty_batch_divzero :
    (∀ rs : List EpochResult, synchronize_workers rs = none ↔ rs = []) ∧
    (∀ outcomes : List (Option EpochResult), outcomes.filterMap id = [] →
        train_epoch_parallel outcomes = none) ∧
    (∀ (outcomes : ℕ → List (Option EpochResult)) (n e : ℕ), 0 < n →
        (outcomes e).filterMap id = [] →
        train_loop outcomes n e = .error "ZeroDivisionError") := by
  have hsync : ∀ rs : List EpochResult, synchronize_workers rs = none ↔ rs = [] := by
    intro rs
    constructor
    · intro h
      by_contra hne
      have hlen : ¬ rs.length = 0 := fun h0 => hne (List.length_eq_zero.mp h0)
      unfold synchronize_workers at h
      rw [if_neg hlen] at h
      exact Option.noConfusion h
    · intro h
      subst h
      rfl
  have hepoch : ∀ outcomes : List (Option EpochResult), outcomes.filterMap id = [] →
      train_epoch_parallel outcomes = none := by
    intro outcomes h
    unfold train_epoch_parallel
    rw [h]
    exact (hsync []).mpr rfl
  refine ⟨hsync, hepoch, ?_⟩
  intro outcomes n e hn h
  cases n with
  | zero => omega
  | succ m =>
      show (match train_epoch_parallel (outcomes e) with
        | none => Except.error "ZeroDivisionError"
        | some (_, ga) =>
            if 95 / 100 < ga then Except.ok [ga]
            else
              match train_loop outcomes m (e + 1) with
              | Except.error s => Except.error s
              | Except.ok rest => Except.ok (ga :: rest)) = Except.error "ZeroDivisionError"
      rw [hepoch (outcomes e) h]

/-- Witness for C8: with two workers whose futures all raise, the first
epoch's synchronization gets an empty list and a 3-round run aborts. -/
theorem synchronize_empty_batch_divzero_witness :
    synchronize_workers [] = none ∧
    train_epoch_parallel [none, none] = none ∧
    train_loop allFailedOutcomes 3 1 = .error "ZeroDivisionError" :=
  ⟨(synchronize_empty_batch_divzero.1 []).mpr rfl,
   synchronize_empty_batch_divzero.2.1 [none, none] rfl,
   synchronize_empty_batch_divzero.2.2 allFailedOutcomes 3 1 (by norm_num) rfl⟩

/-- Claim C10: each worker's partition holds exactly `N / w` (floor division)
consecutive sample indices — the interval from `i * (N / w)` — partitions of
distinct workers are disjoint, and when `w` does not divide `N` the trailing
`N mod w` indices (those at or beyond `w * (N / w)`) lie in no worker's
partition, so they are never processed in any round. -/
theorem data_partition_spec (N w i j x : ℕ) :
    ((data_partition N w i).length = N / w) ∧
    (x ∈ data_partition N w i ↔
      i * (N / w) ≤ x ∧ x < i * (N / w) + N / w) ∧
    (i ≠ j → ¬ (x ∈ data_partition N w i ∧ x ∈ data_partition N w j)) ∧
    (w * (N / w) ≤ x → ∀ i', i' < w → x ∉ data_partition N w i') := by
  have hmem : ∀ i' x' : ℕ, x' ∈ data_partition N w i' ↔
      i' * (N / w) ≤ x' ∧ x' < i' * (N / w) + N / w := by
    intro i' x'
    exact List.mem_range'_1
  have hdisj : ∀ i' j' : ℕ, i' < j' → x ∈ data_partition N w i' →
      x ∈ data_partition N w j' → False := by
    intro i' j' hlt hxi hxj
    obtain ⟨hi1, hi2⟩ := (hmem i' x).mp hxi
    obtain ⟨hj1, _⟩ := (hmem j' x).mp hxj
    have hb : (i' + 1) * (N / w) ≤ j' * (N / w) :=
      Nat.mul_le_mul_right _ hlt
    have hs : (i' + 1) * (N / w) = i' * (N / w) + N / w := by ring
    omega
  refine ⟨List.length_range' .., hmem i x, ?_, ?_⟩
  · intro hij ⟨hxi, hxj⟩
    rcases Nat.lt_or_ge i j with hlt | hge
    · exact hdisj i j hlt hxi hxj
    · exact hdisj j i (lt_of_le_of_ne hge (Ne.symm hij)) hxj hxi
  · intro hx i' hi' hin
    obtain ⟨h1, h2⟩ := (hmem i' x).mp hin
    have hb : (i' + 1) * (N / w) ≤ w * (N / w) :=
      Nat.mul_le_mul_right _ hi'
    have hs : (i' + 1) * (N / w) = i' * (N / w) + N / w := by ring
    omega

/-- Witness for C10: with 10 samples over 3 workers each partition holds 3
indices and the leftover sample 9 is in no worker's partition. -/
theorem data_partition_spec_witness :
    (data_partition 10 3 0).length = 10 / 3 ∧
    9 ∉ data_partition 10 3 0 ∧ 9 ∉ data_partition 10 3 1 ∧ 9 ∉ data_partition 10 3 2 :=
  ⟨(data_partition_spec 10 3 0 0 9).1,
   (data_partition_spec 10 3 0 0 9).2.2.2 (by norm_num) 0 (by norm_num),
   (data_partition_spec 10 3 0 0 9).2.2.2 (by norm_num) 1 (by norm_num),
   (data_partition_spec 10 3 0 0 9).2.2.2 (by norm_num) 2 (by norm_num)⟩

end DistTraining
